import Mathlib



/-!
Verification development for the walkie-agent perception-to-navigation
control subsystem.  The definitions below are shallow embeddings of the
Python source (src/agents/walkie_agent/tools.py, src/vision/background_detector.py,
src/db/walkie_db.py, src/utils/teleop_handler.py).  Machine floats are
modelled as real numbers (geometry, distances) or rationals (confidences,
pixel comparisons); images and embeddings are abstracted since no claim
depends on their contents.
-/

/-! Constants (src/agents/walkie_agent/tools.py lines 126-128) -/

/-- FOLLOW_STOP_DISTANCE = 0.7 m, how close the robot approaches the person. -/
def FOLLOW_STOP_DISTANCE : ℝ := 0.7

/-- APPROACH_DISTANCE = 0.7 m, how close before go_to_raised_hand finishes. -/
def APPROACH_DISTANCE : ℝ := 0.7

/-! Follow-person goal computation (tools.py lines 202-216)

`math.atan2 y x` is the argument of the complex number `x + y*I`. -/

/-- Model of Python `math.atan2 y x`: the principal argument of `x + y*I`,
in (-pi, pi]. -/
noncomputable def atan2 (y x : ℝ) : ℝ := Complex.arg ⟨x, y⟩

/-- Embedding of the per-tick goal computation of `follow_person`
(tools.py lines 202-216): given the target's projected 3D position
`target_pos` and the robot pose `(rx, ry)`, it returns the
`(goal_x, goal_y, heading)` triple passed to the non-blocking
`robot.nav.go_to` call, or `none` when `dist > 0` fails and no go_to
command is issued this tick. -/
noncomputable def follow_goal (target_pos : ℝ × ℝ × ℝ) (rx ry : ℝ) :
    Option (ℝ × ℝ × ℝ) :=
  let tx := target_pos.1
  let ty := target_pos.2.1
  let dx := rx - tx
  let dy := ry - ty
  let dist := Real.sqrt (dx ^ 2 + dy ^ 2)
  if 0 < dist then
    let s := FOLLOW_STOP_DISTANCE / dist
    some (tx + dx * s, ty + dy * s, atan2 (-dy) (-dx))
  else
    none

/-! Biggest-candidate selection (tools.py lines 196 and 336)

`DetectedObject.bbox` is `(x1, y1, x2, y2)` in pixels
(src/vision/object_detection/base.py line 14); `PersonPose.bbox` is
`(cx, cy, w, h)` (src/vision/pose_estimation/base.py line 66).
Images, masks and area ratios are abstracted away. -/

/-- Embedding of `DetectedObject` (src/vision/object_detection/base.py):
`bbox = (x1, y1, x2, y2)` pixels; mask and cropped image abstracted. -/
structure DetectedObject where
  bbox : ℤ × ℤ × ℤ × ℤ
  class_id : Option ℤ
  class_name : Option String
  confidence : Option ℚ
deriving DecidableEq, Repr

/-- Model of Python `max(x :: l, key)` over a non-empty list: scan left to
right, replacing the current best only on a strictly larger key, so the
first element attaining the maximal key wins. -/
def list_max_by {α : Type} (key : α → ℤ) (x : α) (l : List α) : α :=
  l.foldl (fun b o => if key b < key o then o else b) x

/-- The selection key actually used by `follow_person` (tools.py line 196):
`obj.bbox[2] * obj.bbox[3]`, i.e. `x2 * y2` for a `(x1, y1, x2, y2)` bbox. -/
def follow_select_key (o : DetectedObject) : ℤ :=
  o.bbox.2.2.1 * o.bbox.2.2.2

/-- The bbox area `width * height = (x2 - x1) * (y2 - y1)` of a
`DetectedObject` with bbox `(x1, y1, x2, y2)`. -/
def bbox_area (o : DetectedObject) : ℤ :=
  (o.bbox.2.2.1 - o.bbox.1) * (o.bbox.2.2.2 - o.bbox.2.1)

/-- Embedding of the target selection of `follow_person` (tools.py line 196):
`max(persons, key=lambda obj: obj.bbox[2] * obj.bbox[3])` over a non-empty
candidate list. -/
def follow_select (x : DetectedObject) (l : List DetectedObject) : DetectedObject :=
  list_max_by follow_select_key x l

/-! Raised-hand predicate (tools.py lines 240-266) -/

/-- Embedding of `PoseKeypoint` (src/vision/pose_estimation/base.py):
pixel coordinates and confidence; keypoint name and index abstracted. -/
structure PoseKeypoint where
  x : ℚ
  y : ℚ
  confidence : ℚ
deriving DecidableEq, Repr

/-- Embedding of `PersonPose` (src/vision/pose_estimation/base.py):
`bbox = (cx, cy, w, h)`; cropped image abstracted. -/
structure PersonPose where
  bbox : ℤ × ℤ × ℤ × ℤ
  confidence : ℚ
  keypoints : List PoseKeypoint
deriving DecidableEq, Repr

/-- Default keypoint used only to give `List.getD` a total reading of the
guarded accesses `kpts[5], kpts[6], kpts[9], kpts[10]` in the source; the
length guard makes it unreachable. -/
def default_kpt : PoseKeypoint := ⟨0, 0, 0⟩

/-- Embedding of `_has_raised_hand` (tools.py lines 240-266): false when
fewer than 17 keypoints; otherwise the left pair (wrist 9, shoulder 5) or
right pair (wrist 10, shoulder 6) has both confidences at least `min_conf`
and the wrist strictly above the shoulder in pixel y. -/
def has_raised_hand (person : PersonPose) (min_conf : ℚ := 1/2) : Bool :=
  let kpts := person.keypoints
  if kpts.length < 17 then
    false
  else
    let left :=
      decide (min_conf ≤ (kpts.getD 9 default_kpt).confidence) &&
      decide (min_conf ≤ (kpts.getD 5 default_kpt).confidence) &&
      decide ((kpts.getD 9 default_kpt).y < (kpts.getD 5 default_kpt).y)
    let right :=
      decide (min_conf ≤ (kpts.getD 10 default_kpt).confidence) &&
      decide (min_conf ≤ (kpts.getD 6 default_kpt).confidence) &&
      decide ((kpts.getD 10 default_kpt).y < (kpts.getD 6 default_kpt).y)
    left || right

/-- The raised-hand condition as the spec words it, reading the four
keypoints by checked index access: one of the wrist/shoulder pairs has both
confidences at least 1/2 and the wrist pixel y strictly below the
shoulder's. -/
def raised_hand_spec (p : PersonPose) (h : 17 ≤ p.keypoints.length) : Prop :=
  ((1:ℚ)/2 ≤ (p.keypoints.get ⟨9, by omega⟩).confidence ∧
   (1:ℚ)/2 ≤ (p.keypoints.get ⟨5, by omega⟩).confidence ∧
   (p.keypoints.get ⟨9, by omega⟩).y < (p.keypoints.get ⟨5, by omega⟩).y) ∨
  ((1:ℚ)/2 ≤ (p.keypoints.get ⟨10, by omega⟩).confidence ∧
   (1:ℚ)/2 ≤ (p.keypoints.get ⟨6, by omega⟩).confidence ∧
   (p.keypoints.get ⟨10, by omega⟩).y < (p.keypoints.get ⟨6, by omega⟩).y)

/-! Theorems for claim C3 (biggest-candidate selection) -/

/-- A person detection with bbox (0,0,4,4): area 16, corner product 16. -/
def person_a : DetectedObject := ⟨(0, 0, 4, 4), some 0, some ("person"), some (9/10)⟩

/-- A person detection with bbox (8,8,10,10): area 4, corner product 100. -/
def person_b : DetectedObject := ⟨(8, 8, 10, 10), some 0, some ("person"), some (9/10)⟩

/-- Keypoint list with 17 entries: the left shoulder (index 5) at pixel
y = 200 with confidence 9/10 and the left wrist (index 9) at the given
pixel y with confidence 9/10; all other keypoints at confidence 0. -/
def example_kpts (wrist_y : ℚ) : List PoseKeypoint :=
  [⟨0, 0, 0⟩, ⟨0, 0, 0⟩, ⟨0, 0, 0⟩, ⟨0, 0, 0⟩, ⟨0, 0, 0⟩,
   ⟨50, 200, 9/10⟩, ⟨0, 0, 0⟩, ⟨0, 0, 0⟩, ⟨0, 0, 0⟩,
   ⟨50, wrist_y, 9/10⟩, ⟨0, 0, 0⟩, ⟨0, 0, 0⟩, ⟨0, 0, 0⟩,
   ⟨0, 0, 0⟩, ⟨0, 0, 0⟩, ⟨0, 0, 0⟩, ⟨0, 0, 0⟩]

/-- Pose whose left wrist (y = 100) is above the left shoulder (y = 200). -/
def pose_wrist_up : PersonPose := ⟨(50, 50, 20, 40), 9/10, example_kpts 100⟩

/-- Pose whose left wrist (y = 250) is below the left shoulder (y = 200). -/
def pose_wrist_down : PersonPose := ⟨(50, 50, 20, 40), 9/10, example_kpts 250⟩

/-! Spatial object store (src/db/walkie_db.py)

`ObjectRecord` (walkie_db.py lines 9-19) with its metadata as written by
`upsert_object` (lines 58-82); the embedding vector and heading are carried
but never inspected by the claims. -/

/-- Embedding of `ObjectRecord` / the object metadata stored by
`upsert_object`: id, position, embedding, heading and optional scene/class
fields. -/
structure ObjectRecord where
  object_id : String
  object_x : ℝ
  object_y : ℝ
  object_z : ℝ
  object_embedding : List ℝ
  heading : ℝ
  scene_id : Option String
  class_id : Option ℤ
  class_name : Option String

/-- Euclidean distance computed by `find_nearby_object` (walkie_db.py
lines 181-185) between the query `position` and a stored record. -/
noncomputable def object_distance (position : ℝ × ℝ × ℝ) (r : ObjectRecord) : ℝ :=
  Real.sqrt ((position.1 - r.object_x) ^ 2 + (position.2.1 - r.object_y) ^ 2 +
    (position.2.2 - r.object_z) ^ 2)

/-- One iteration of the best-match scan of `find_nearby_object`
(walkie_db.py lines 177-188): the accumulator holds `(best_id, best_dist)`,
starting from `best_id = None, best_dist = inf`, and is replaced exactly
when `dist < radius and dist < best_dist`. -/
noncomputable def find_nearby_step (position : ℝ × ℝ × ℝ) (radius : ℝ)
    (best : Option (String × ℝ)) (r : ObjectRecord) : Option (String × ℝ) :=
  let d := object_distance position r
  match best with
  | none => if d < radius then some (r.object_id, d) else none
  | some (bid, bd) => if d < radius ∧ d < bd then some (r.object_id, d) else some (bid, bd)

/-- Embedding of `WalkieVectorDB.find_nearby_object` (walkie_db.py
lines 143-190): restrict the stored records to those whose `class_id`
metadata equals the query class (the ChromaDB `where` filter), scan them
keeping the closest record strictly within `radius`, and return its
object_id. -/
noncomputable def find_nearby_object (db : List ObjectRecord) (class_id : ℤ)
    (position : ℝ × ℝ × ℝ) (radius : ℝ) : Option String :=
  let matched := db.filter (fun r => decide (r.class_id = some class_id))
  (matched.foldl (find_nearby_step position radius) none).map Prod.fst

/-- Stored record of class 1 at (1, 0, 0): at Euclidean distance exactly 1
from the origin query. -/
def boundary_record : ObjectRecord := ⟨"obj_a", 1, 0, 0, [], 0, none, some 1, some ("cup")⟩

/-! Background detector cycle (src/vision/background_detector.py)

`_run_cycle` (lines 131-231) is embedded as a pure state transformer:
camera capture and YOLO detection are collapsed into the `detections`
input, the localization service into the `loc` function, the robot
heading into a parameter, CLIP embedding into `embed`, and the per-miss
`uuid4` generator into an injective-free supply `fresh` indexed by the
loop position.  The result is the new object store, the published
visible-objects snapshot, and the ordered trace of store/snapshot events
of the cycle. -/

/-- One entry of the visible-objects snapshot (background_detector.py
lines 160-169 and 215-223). -/
structure VisEntry where
  class_name : String
  class_id : Option ℤ
  confidence : Option ℚ
  position : Option (ℝ × ℝ × ℝ)
  object_id : Option String

/-- Ordered observable events of one detector cycle: an upsert into the
object store, or the atomic replacement of the visible-objects snapshot. -/
inductive CycleEvent where
  | upsert (r : ObjectRecord)
  | publish (snapshot : List VisEntry)

/-- Embedding of the confidence filter (background_detector.py
lines 144-147): keep a detection iff its confidence is present and at
least the threshold. -/
def conf_keep (threshold : ℚ) (o : DetectedObject) : Bool :=
  match o.confidence with
  | none => false
  | some c => decide (threshold ≤ c)

/-- Embedding of `upsert_object` (walkie_db.py lines 58-82): a write keyed
by `object_id`, replacing the existing record with that id or appending a
new one. -/
def upsert_object (db : List ObjectRecord) (r : ObjectRecord) : List ObjectRecord :=
  if db.any (fun r' => decide (r'.object_id = r.object_id)) then
    db.map (fun r' => if r'.object_id = r.object_id then r else r')
  else
    db ++ [r]

/-- The `ObjectRecord` built for one detection (background_detector.py
lines 203-213): position, embedding and current heading, no scene. -/
def record_of (oid : String) (pos : ℝ × ℝ × ℝ) (embedding : List ℝ)
    (heading : ℝ) (o : DetectedObject) : ObjectRecord :=
  ⟨oid, pos.1, pos.2.1, pos.2.2, embedding, heading, none, o.class_id, o.class_name⟩

/-- The snapshot entry built for one detection (background_detector.py
lines 160-169 and 215-223): `class_name or "unknown"`, the detection's
class and confidence, and the given position/object id. -/
def vis_entry_of (o : DetectedObject) (pos : Option (ℝ × ℝ × ℝ))
    (oid : Option String) : VisEntry :=
  ⟨o.class_name.getD ("unknown"), o.class_id, o.confidence, pos, oid⟩

/-- Embedding of the per-detection loop of `_run_cycle` (lines 182-223):
for each `(detection, position)` pair in order, embed the crop, run
`find_nearby_object` on the CURRENT store when the detection has a class
id, reuse the found id or draw a fresh one, upsert the record, and append
the snapshot entry; returns the final store, the accumulated
`frame_visible` list, and the upsert events in order. -/
noncomputable def cycle_loop (dedup_radius heading : ℝ)
    (embed : DetectedObject → List ℝ) (fresh : ℕ → String) :
    List (DetectedObject × (ℝ × ℝ × ℝ)) → List ObjectRecord → ℕ →
      List ObjectRecord × List VisEntry × List CycleEvent
  | [], db, _ => (db, [], [])
  | (o, pos) :: rest, db, n =>
    let embedding := embed o
    let found := match o.class_id with
      | some cid => find_nearby_object db cid pos dedup_radius
      | none => none
    let oid := found.getD (fresh n)
    let rec1 := record_of oid pos embedding heading o
    let db1 := upsert_object db rec1
    let out := cycle_loop dedup_radius heading embed fresh rest db1 (n + 1)
    (out.1, vis_entry_of o (some pos) (some oid) :: out.2.1,
      CycleEvent.upsert rec1 :: out.2.2)

/-- Embedding of `_run_cycle` (background_detector.py lines 131-231):
empty detections or an empty confidence-filtered list publish an empty
snapshot and leave the store alone; a localization timeout (`loc` returns
`none`) publishes position-less, id-less entries and skips persistence;
otherwise the per-detection loop runs over the zipped
`(filtered, positions)` pairs and the full snapshot is published after it
completes. -/
noncomputable def run_cycle (threshold : ℚ) (dedup_radius heading : ℝ)
    (embed : DetectedObject → List ℝ) (fresh : ℕ → String)
    (loc : List (ℤ × ℤ × ℤ × ℤ) → Option (List (ℝ × ℝ × ℝ)))
    (db : List ObjectRecord) (detections : List DetectedObject) :
    List ObjectRecord × List VisEntry × List CycleEvent :=
  if detections.isEmpty then
    (db, [], [CycleEvent.publish []])
  else
    let filtered := detections.filter (conf_keep threshold)
    if filtered.isEmpty then
      (db, [], [CycleEvent.publish []])
    else
      match loc (filtered.map (fun o => o.bbox)) with
      | none =>
        let snapshot := filtered.map (fun o => vis_entry_of o none none)
        (db, snapshot, [CycleEvent.publish snapshot])
      | some positions =>
        let out := cycle_loop dedup_radius heading embed fresh
          (filtered.zip positions) db 0
        (out.1, out.2.1, out.2.2 ++ [CycleEvent.publish out.2.1])

/-- Detection with a present confidence of 1, class 5 ("cup"). -/
def det_cup : DetectedObject := ⟨(0, 0, 2, 2), some 5, some ("cup"), some 1⟩

/-- Detection whose confidence is absent. -/
def det_noconf : DetectedObject := ⟨(0, 0, 1, 1), some 7, some ("box"), none⟩

/-! Teleoperation bridge (src/utils/teleop_handler.py)

The quaternion helpers `quaternion_multiply` and `euler_to_quaternion`
are imported by the source from the robot SDK (`walkie_sdk.utils.converters`),
which is not part of this tree; they are modelled from the spec below.
Quaternions are `(x, y, z, w)` tuples of reals. -/

/-- Rigid pose as the 7-tuple `(tx, ty, tz, qx, qy, qz, qw)` used throughout
`teleop_handler.py`. -/
@[ext]
structure RigidPose where
  tx : ℝ
  ty : ℝ
  tz : ℝ
  qx : ℝ
  qy : ℝ
  qz : ℝ
  qw : ℝ

/-- Modelled from the spec: `quaternion_multiply` of the robot SDK (not
under src/), the Hamilton product in `(x, y, z, w)` component order. -/
def quaternion_multiply (q1 q2 : ℝ × ℝ × ℝ × ℝ) : ℝ × ℝ × ℝ × ℝ :=
  let x1 := q1.1; let y1 := q1.2.1; let z1 := q1.2.2.1; let w1 := q1.2.2.2
  let x2 := q2.1; let y2 := q2.2.1; let z2 := q2.2.2.1; let w2 := q2.2.2.2
  (w1 * x2 + x1 * w2 + y1 * z2 - z1 * y2,
   w1 * y2 - x1 * z2 + y1 * w2 + z1 * x2,
   w1 * z2 + x1 * y2 - y1 * x2 + z1 * w2,
   w1 * w2 - x1 * x2 - y1 * y2 - z1 * z2)

/-- Modelled from the spec: `euler_to_quaternion` of the robot SDK (not
under src/), the standard roll-pitch-yaw to `(x, y, z, w)` quaternion
conversion. -/
noncomputable def euler_to_quaternion (roll pitch yaw : ℝ) : ℝ × ℝ × ℝ × ℝ :=
  let cr := Real.cos (roll / 2); let sr := Real.sin (roll / 2)
  let cp := Real.cos (pitch / 2); let sp := Real.sin (pitch / 2)
  let cy := Real.cos (yaw / 2); let sy := Real.sin (yaw / 2)
  (sr * cp * cy - cr * sp * sy,
   cr * sp * cy + sr * cp * sy,
   cr * cp * sy - sr * sp * cy,
   cr * cp * cy + sr * sp * sy)

/-- Embedding of `_rotate_vector_by_quaternion` (teleop_handler.py
lines 21-27): conjugation `q * v * q_conj` of the pure quaternion `v`. -/
def rotate_vector_by_quaternion (v : ℝ × ℝ × ℝ) (q : ℝ × ℝ × ℝ × ℝ) : ℝ × ℝ × ℝ :=
  let q_conj := (-q.1, -q.2.1, -q.2.2.1, q.2.2.2)
  let v_quat := (v.1, v.2.1, v.2.2, (0:ℝ))
  let tmp := quaternion_multiply q v_quat
  let result := quaternion_multiply tmp q_conj
  (result.1, result.2.1, result.2.2.1)

/-- Embedding of `_compose_transforms` (teleop_handler.py lines 29-35):
translation = parent translation + child translation rotated by the parent
rotation; rotation = quaternion product of parent and child rotations. -/
def compose_transforms (parent child : RigidPose) : RigidPose :=
  let rotated := rotate_vector_by_quaternion (child.tx, child.ty, child.tz)
    (parent.qx, parent.qy, parent.qz, parent.qw)
  let combined_q := quaternion_multiply (parent.qx, parent.qy, parent.qz, parent.qw)
    (child.qx, child.qy, child.qz, child.qw)
  ⟨parent.tx + rotated.1, parent.ty + rotated.2.1, parent.tz + rotated.2.2,
   combined_q.1, combined_q.2.1, combined_q.2.2.1, combined_q.2.2.2⟩

/-- Embedding of `_remap_controller_to_ros` (teleop_handler.py lines 68-79):
position remap `(x, y, z) -> (-x, -z, y)`, rotation remap
`(qx, qy, qz, qw) -> (-qx, -qz, qy, qw)` composed with a fixed -90 degree
yaw offset quaternion. -/
noncomputable def remap_controller_to_ros (cx cy cz cqx cqy cqz cqw : ℝ) : RigidPose :=
  let yaw_offset := -(Real.pi / 2)
  let offset_quat := euler_to_quaternion 0 0 yaw_offset
  let final_quat := quaternion_multiply (-cqx, -cqz, cqy, cqw) offset_quat
  ⟨-cx, -cz, cy, final_quat.1, final_quat.2.1, final_quat.2.2.1, final_quat.2.2.2⟩

/-- Embedding of `_lookup_ee_pose` (teleop_handler.py lines 37-66): the
source unconditionally returns the constant pose
`(0.3, 0.2, 0.6, 0, 0, 0, 1)` for every link. -/
def lookup_ee_pose (_target_link : String) : RigidPose :=
  ⟨0.3, 0.2, 0.6, 0, 0, 0, 1⟩

/-- The `ee_links` dictionary of `VRTeleopHandler.__init__`
(teleop_handler.py line 19). -/
def ee_links (group : String) : Option String :=
  if group = "left_arm" then some ("left_link7")
  else if group = "right_arm" then some ("right_link7")
  else none

/-- The `_initial_poses` map after `start()` (teleop_handler.py
lines 85-89): each known group's reference pose is the looked-up
end-effector pose of its link; unknown groups are absent and their
messages are ignored by the handler. -/
def teleop_session_initial_poses (group : String) : Option RigidPose :=
  (ee_links group).map lookup_ee_pose

/-- Embedding of the pose command issued by the `listener`
(teleop_handler.py lines 95-136) for a message with remapped delta `d`:
`target_pos = init translation + d translation` componentwise and
`target_quat = quaternion_multiply(init rotation, d rotation)`. -/
noncomputable def listener_command (init : RigidPose) (cx cy cz cqx cqy cqz cqw : ℝ) :
    RigidPose :=
  let d := remap_controller_to_ros cx cy cz cqx cqy cqz cqw
  let target_quat := quaternion_multiply (init.qx, init.qy, init.qz, init.qw)
    (d.qx, d.qy, d.qz, d.qw)
  ⟨init.tx + d.tx, init.ty + d.ty, init.tz + d.tz,
   target_quat.1, target_quat.2.1, target_quat.2.2.1, target_quat.2.2.2⟩

/-! Theorems for claims C1, C8 (follow goal geometry) -/

/-- C1: in the follow-person loop, with the robot at (0,0) and the target's
3D-projected position at (5,0,0), FOLLOW_STOP_DISTANCE = 0.7, the computed
goal passed to the non-blocking go_to command is (4.3, 0) with heading 0. -/
theorem c1_follow_goal_offset :
    follow_goal (5, 0, 0) 0 0 = some (4.3, 0, 0) := by
  have hsq : Real.sqrt (((0:ℝ) - 5) ^ 2 + ((0:ℝ) - 0) ^ 2) = 5 := by
    rw [show ((0:ℝ) - 5) ^ 2 + ((0:ℝ) - 0) ^ 2 = 5 ^ 2 by norm_num]
    exact Real.sqrt_sq (by norm_num)
  have harg : atan2 (-((0:ℝ) - 0)) (-((0:ℝ) - 5)) = 0 := by
    have h5 : (Complex.mk (-((0:ℝ) - 5)) (-((0:ℝ) - 0))) = ((5:ℝ) : ℂ) := by
      apply Complex.ext <;> simp
    rw [atan2, h5]
    exact Complex.arg_ofReal_of_nonneg (by norm_num)
  simp only [follow_goal, hsq, harg]
  rw [if_pos (by norm_num)]
  norm_num [FOLLOW_STOP_DISTANCE]

/-- C8: on a follow-person tick where the 2D Euclidean distance between the
robot and the target is exactly 0, the `dist > 0` guard fails, so no go_to
command is issued that tick and the standoff division by `dist` is never
evaluated. -/
theorem c8_zero_distance_no_goal (tx ty tz rx ry : ℝ)
    (h : Real.sqrt ((rx - tx) ^ 2 + (ry - ty) ^ 2) = 0) :
    follow_goal (tx, ty, tz) rx ry = none := by
  simp only [follow_goal, h]
  rw [if_neg (by norm_num)]

/-- Witness for C8 at the concrete tick where robot and target both project
to (1,2): the hypothesis evaluates and no goal is produced. -/
theorem c8_zero_distance_no_goal_witness :
    follow_goal (1, 2, 3) 1 2 = none := by
  apply c8_zero_distance_no_goal
  rw [show ((1:ℝ) - 1) ^ 2 + ((2:ℝ) - 2) ^ 2 = 0 by norm_num]
  exact Real.sqrt_zero

/-- C3 (code bug): `follow_person` selects with key `bbox[2] * bbox[3]`,
which for the `(x1, y1, x2, y2)` bbox of `DetectedObject` is the corner
product `x2 * y2`, not the bbox area `(x2 - x1) * (y2 - y1)` its own
comment ("by bbox area (w * h)") and the spec describe: among candidates
with bboxes (0,0,4,4) and (8,8,10,10) the code picks the latter, whose
area 4 is strictly smaller than the former's area 16. -/
theorem c3_follow_selection_not_largest_area :
    follow_select person_a [person_b] = person_b ∧
    bbox_area person_b < bbox_area person_a := by
  constructor
  · norm_num [follow_select, list_max_by, follow_select_key, person_a, person_b]
  · norm_num [bbox_area, person_a, person_b]

/-! Theorems for claims C6, C9 (raised-hand predicate) -/

/-- C6: for a pose with at least 17 keypoints, `_has_raised_hand` holds at
the default threshold iff the left pair (wrist 9, shoulder 5) or the right
pair (wrist 10, shoulder 6) has both confidences at least 1/2 and the
wrist's pixel y strictly smaller than the shoulder's. -/
theorem c6_raised_hand_iff (p : PersonPose) (h : 17 ≤ p.keypoints.length) :
    has_raised_hand p = true ↔ raised_hand_spec p h := by
  have h9 : p.keypoints.getD 9 default_kpt = p.keypoints.get ⟨9, by omega⟩ := by
    rw [List.getD_eq_getElem?_getD, List.getElem?_eq_getElem (by omega)]; rfl
  have h5 : p.keypoints.getD 5 default_kpt = p.keypoints.get ⟨5, by omega⟩ := by
    rw [List.getD_eq_getElem?_getD, List.getElem?_eq_getElem (by omega)]; rfl
  have h10 : p.keypoints.getD 10 default_kpt = p.keypoints.get ⟨10, by omega⟩ := by
    rw [List.getD_eq_getElem?_getD, List.getElem?_eq_getElem (by omega)]; rfl
  have h6 : p.keypoints.getD 6 default_kpt = p.keypoints.get ⟨6, by omega⟩ := by
    rw [List.getD_eq_getElem?_getD, List.getElem?_eq_getElem (by omega)]; rfl
  simp only [has_raised_hand, raised_hand_spec, h9, h5, h10, h6,
    if_neg (by omega : ¬ p.keypoints.length < 17),
    Bool.or_eq_true, Bool.and_eq_true, decide_eq_true_eq]
  tauto

/-- Witness for C6 at the claim's concrete poses: the wrist-at-100 pose has
at least 17 keypoints and the equivalence instantiates there; the predicate
evaluates to true there and to false with the wrist at 250. -/
theorem c6_raised_hand_iff_witness :
    (17 ≤ pose_wrist_up.keypoints.length ∧
      (has_raised_hand pose_wrist_up = true ↔
        raised_hand_spec pose_wrist_up (by norm_num [pose_wrist_up, example_kpts]))) ∧
    has_raised_hand pose_wrist_up = true ∧
    has_raised_hand pose_wrist_down = false :=
  ⟨⟨by norm_num [pose_wrist_up, example_kpts],
    c6_raised_hand_iff pose_wrist_up (by norm_num [pose_wrist_up, example_kpts])⟩,
   by norm_num [has_raised_hand, pose_wrist_up, example_kpts, default_kpt],
   by norm_num [has_raised_hand, pose_wrist_down, example_kpts, default_kpt]⟩

/-- C9: for a pose whose keypoint list has fewer than 17 entries the
raised-hand predicate returns false at every confidence threshold; the
guarded accesses at indices 5, 6, 9 and 10 are never reached. -/
theorem c9_short_keypoints_false (p : PersonPose) (c : ℚ)
    (h : p.keypoints.length < 17) :
    has_raised_hand p c = false := by
  simp only [has_raised_hand, if_pos h]

/-- Witness for C9: a pose with no keypoints at all yields false. -/
theorem c9_short_keypoints_false_witness :
    has_raised_hand ⟨(0, 0, 0, 0), 0, []⟩ (1/2) = false :=
  c9_short_keypoints_false ⟨(0, 0, 0, 0), 0, []⟩ (1/2) (by decide)

/-- The best-match scan yields `none` exactly when it started from `none`
and no scanned record lies strictly within the radius. -/
theorem find_nearby_fold_none (position : ℝ × ℝ × ℝ) (radius : ℝ) :
    ∀ (l : List ObjectRecord) (acc : Option (String × ℝ)),
      l.foldl (find_nearby_step position radius) acc = none ↔
        acc = none ∧ ∀ r ∈ l, radius ≤ object_distance position r := by
  intro l
  induction l with
  | nil => intro acc; simp
  | cons r l ih =>
    intro acc
    rw [List.foldl_cons, ih]
    constructor
    · rintro ⟨hstep, hl⟩
      rcases acc with _ | ⟨bid, bd⟩
      · by_cases hd : object_distance position r < radius
        · simp [find_nearby_step, if_pos hd] at hstep
        · refine ⟨rfl, ?_⟩
          intro r' hr'
          rcases List.mem_cons.1 hr' with heq | hr'
          · rw [heq]
            exact le_of_not_lt hd
          · exact hl r' hr'
      · by_cases hd : object_distance position r < radius ∧
            object_distance position r < bd
        · simp [find_nearby_step, if_pos hd] at hstep
        · simp [find_nearby_step, if_neg hd] at hstep
    · rintro ⟨hacc, hl⟩
      subst hacc
      have hd : ¬ object_distance position r < radius :=
        not_lt.2 (hl r (List.mem_cons_self r l))
      refine ⟨?_, fun r' hr' => hl r' (List.mem_cons_of_mem r hr')⟩
      simp [find_nearby_step, if_neg hd]

/-- The best-match scan returning `some (id, d0)` means: the result either
was the initial accumulator or is a scanned record strictly within the
radius at distance `d0`; `d0` is a lower bound for every scanned record
strictly within the radius; and `d0` never exceeds the initial
accumulator's distance. -/
theorem find_nearby_fold_some (position : ℝ × ℝ × ℝ) (radius : ℝ) :
    ∀ (l : List ObjectRecord) (acc : Option (String × ℝ)) (id : String) (d0 : ℝ),
      l.foldl (find_nearby_step position radius) acc = some (id, d0) →
        (acc = some (id, d0) ∨
          ∃ r ∈ l, r.object_id = id ∧ object_distance position r = d0 ∧ d0 < radius) ∧
        (∀ r ∈ l, object_distance position r < radius →
          d0 ≤ object_distance position r) ∧
        (∀ id' d', acc = some (id', d') → d0 ≤ d') := by
  intro l
  induction l with
  | nil =>
    intro acc id d0 h
    rw [List.foldl_nil] at h
    refine ⟨Or.inl h, by simp, ?_⟩
    intro id' d' hacc
    rw [h] at hacc
    injection hacc with hpair
    injection hpair with h1 h2
    rw [h2]
  | cons r l ih =>
    intro acc id d0 h
    rw [List.foldl_cons] at h
    obtain ⟨H1, H2, H3⟩ := ih (find_nearby_step position radius acc r) id d0 h
    rcases acc with _ | ⟨bid, bd⟩
    · by_cases hd : object_distance position r < radius
      · have hstep : find_nearby_step position radius none r =
            some (r.object_id, object_distance position r) := by
          simp [find_nearby_step, if_pos hd]
        refine ⟨?_, ?_, by simp⟩
        · rcases H1 with H1 | ⟨r', hr', h1, h2, h3⟩
          · rw [hstep] at H1
            injection H1 with hpair
            injection hpair with h1 h2
            exact Or.inr ⟨r, List.mem_cons_self r l, h1, h2, h2 ▸ hd⟩
          · exact Or.inr ⟨r', List.mem_cons_of_mem r hr', h1, h2, h3⟩
        · intro r' hr' hlt
          rcases List.mem_cons.1 hr' with heq | hr'
          · rw [heq]
            exact H3 r.object_id (object_distance position r) hstep
          · exact H2 r' hr' hlt
      · have hstep : find_nearby_step position radius none r = none := by
          simp [find_nearby_step, if_neg hd]
        rw [hstep] at H1 H3
        refine ⟨?_, ?_, by simp⟩
        · rcases H1 with H1 | ⟨r', hr', h1, h2, h3⟩
          · exact absurd H1 (by simp)
          · exact Or.inr ⟨r', List.mem_cons_of_mem r hr', h1, h2, h3⟩
        · intro r' hr' hlt
          rcases List.mem_cons.1 hr' with heq | hr'
          · rw [heq] at hlt
            exact absurd hlt hd
          · exact H2 r' hr' hlt
    · by_cases hd : object_distance position r < radius ∧
          object_distance position r < bd
      · have hstep : find_nearby_step position radius (some (bid, bd)) r =
            some (r.object_id, object_distance position r) := by
          simp [find_nearby_step, if_pos hd]
        have hle : d0 ≤ object_distance position r :=
          H3 r.object_id (object_distance position r) hstep
        refine ⟨?_, ?_, ?_⟩
        · rcases H1 with H1 | ⟨r', hr', h1, h2, h3⟩
          · rw [hstep] at H1
            injection H1 with hpair
            injection hpair with h1 h2
            exact Or.inr ⟨r, List.mem_cons_self r l, h1, h2, h2 ▸ hd.1⟩
          · exact Or.inr ⟨r', List.mem_cons_of_mem r hr', h1, h2, h3⟩
        · intro r' hr' hlt
          rcases List.mem_cons.1 hr' with heq | hr'
          · rw [heq]
            exact hle
          · exact H2 r' hr' hlt
        · intro id' d' hacc
          injection hacc with hpair
          injection hpair with h1 h2
          exact h2 ▸ (le_of_lt (lt_of_le_of_lt hle hd.2))
      · have hstep : find_nearby_step position radius (some (bid, bd)) r =
            some (bid, bd) := by
          simp only [find_nearby_step]
          rw [if_neg hd]
        rw [hstep] at H1 H3
        have hbd : d0 ≤ bd := H3 bid bd rfl
        refine ⟨?_, ?_, ?_⟩
        · rcases H1 with H1 | ⟨r', hr', h1, h2, h3⟩
          · exact Or.inl H1
          · exact Or.inr ⟨r', List.mem_cons_of_mem r hr', h1, h2, h3⟩
        · intro r' hr' hlt
          rcases List.mem_cons.1 hr' with heq | hr'
          · rw [heq] at hlt ⊢
            have hnbd : ¬ object_distance position r < bd := fun hc => hd ⟨hlt, hc⟩
            exact le_trans hbd (not_lt.1 hnbd)
          · exact H2 r' hr' hlt
        · intro id' d' hacc
          injection hacc with hpair
          injection hpair with h1 h2
          exact h2 ▸ hbd

/-! Theorems for claim C2 (find_nearby_object) -/

/-- C2 (amended): `find_nearby_object` returns `none` exactly when no
same-class record lies at distance strictly less than `radius`, and when it
returns an id, that id belongs to a same-class record strictly within
`radius` whose distance is minimal among all same-class records; a record at
distance exactly `radius` is therefore not merge-eligible. -/
theorem c2_find_nearby_characterization (db : List ObjectRecord) (cid : ℤ)
    (position : ℝ × ℝ × ℝ) (radius : ℝ) :
    (find_nearby_object db cid position radius = none ↔
      ∀ r ∈ db, r.class_id = some cid → radius ≤ object_distance position r) ∧
    (∀ id, find_nearby_object db cid position radius = some id →
      ∃ r ∈ db, r.class_id = some cid ∧ r.object_id = id ∧
        object_distance position r < radius ∧
        ∀ r' ∈ db, r'.class_id = some cid →
          object_distance position r ≤ object_distance position r') := by
  have hmem : ∀ r : ObjectRecord,
      r ∈ db.filter (fun r => decide (r.class_id = some cid)) ↔
        r ∈ db ∧ r.class_id = some cid := by
    intro r
    simp [List.mem_filter]
  constructor
  · rw [find_nearby_object, Option.map_eq_none', find_nearby_fold_none]
    constructor
    · rintro ⟨-, hall⟩ r hr hcls
      exact hall r ((hmem r).2 ⟨hr, hcls⟩)
    · intro hall
      exact ⟨rfl, fun r hr => hall r ((hmem r).1 hr).1 ((hmem r).1 hr).2⟩
  · intro id h
    rw [find_nearby_object, Option.map_eq_some'] at h
    obtain ⟨⟨id0, d0⟩, hfold, hfst⟩ := h
    obtain ⟨H1, H2, -⟩ := find_nearby_fold_some position radius _ none id0 d0 hfold
    rcases H1 with H1 | ⟨r, hrmem, hid, hdist, hlt⟩
    · exact absurd H1 (by simp)
    · obtain ⟨hrdb, hrcls⟩ := (hmem r).1 hrmem
      refine ⟨r, hrdb, hrcls, by rw [← hfst, hid], hdist ▸ hlt, ?_⟩
      intro r' hr' hcls'
      by_cases hin : object_distance position r' < radius
      · exact hdist ▸ H2 r' ((hmem r').2 ⟨hr', hcls'⟩) hin
      · exact le_trans (le_of_lt (hdist ▸ hlt)) (le_of_not_lt hin)

/-- Counterexample to C2 as stated: with one class-1 record at distance
exactly `radius = 1` from the query position, `find_nearby_object` returns
`none` — a record at distance exactly the radius is not merge-eligible,
because the source compares `dist < radius` strictly. -/
theorem c2_exact_radius_not_matched :
    object_distance (0, 0, 0) boundary_record = 1 ∧
    find_nearby_object [boundary_record] 1 (0, 0, 0) 1 = none := by
  have hd : object_distance (0, 0, 0) boundary_record = 1 := by
    simp only [object_distance, boundary_record]
    rw [show ((0:ℝ) - 1) ^ 2 + ((0:ℝ) - 0) ^ 2 + ((0:ℝ) - 0) ^ 2 = 1 by norm_num]
    exact Real.sqrt_one
  refine ⟨hd, ?_⟩
  rw [find_nearby_object, Option.map_eq_none', find_nearby_fold_none]
  refine ⟨rfl, ?_⟩
  intro r hr
  have hreq : r = boundary_record := by
    have := (List.mem_filter.1 hr).1
    simpa using this
  rw [hreq, hd]

/-- Witness instantiating the C2 characterization at a concrete store and
query: one class-1 record at (1,0,0), queried from the origin with
radius 2. -/
theorem c2_find_nearby_characterization_witness :
    (find_nearby_object [boundary_record] 1 (0, 0, 0) 2 = none ↔
      ∀ r ∈ [boundary_record], r.class_id = some 1 →
        (2:ℝ) ≤ object_distance (0, 0, 0) r) ∧
    (∀ id, find_nearby_object [boundary_record] 1 (0, 0, 0) 2 = some id →
      ∃ r ∈ [boundary_record], r.class_id = some 1 ∧ r.object_id = id ∧
        object_distance (0, 0, 0) r < 2 ∧
        ∀ r' ∈ [boundary_record], r'.class_id = some 1 →
          object_distance (0, 0, 0) r ≤ object_distance (0, 0, 0) r') :=
  c2_find_nearby_characterization [boundary_record] 1 (0, 0, 0) 2

/-- After an upsert, some record carries the upserted id (either the fresh
append or the in-place replacement, which keeps the same id). -/
theorem upsert_has_id (db : List ObjectRecord) (r : ObjectRecord) :
    ∃ r' ∈ upsert_object db r, r'.object_id = r.object_id := by
  unfold upsert_object
  cases hany : db.any (fun r' => decide (r'.object_id = r.object_id)) with
  | false =>
    simp only [hany, Bool.false_eq_true, if_false]
    exact ⟨r, by simp, rfl⟩
  | true =>
    simp only [hany, if_true]
    obtain ⟨r0, hr0, hid⟩ := List.any_eq_true.1 hany
    have hid' : r0.object_id = r.object_id := of_decide_eq_true hid
    exact ⟨r, List.mem_map.2 ⟨r0, hr0, by rw [if_pos hid']⟩, rfl⟩

/-- An upsert never removes an id from the store: the replaced record is
replaced by one carrying the same id. -/
theorem upsert_keeps_id (db : List ObjectRecord) (r : ObjectRecord) (i : String)
    (h : ∃ r' ∈ db, r'.object_id = i) :
    ∃ r' ∈ upsert_object db r, r'.object_id = i := by
  obtain ⟨r1, hr1, hid⟩ := h
  unfold upsert_object
  cases hany : db.any (fun r' => decide (r'.object_id = r.object_id)) with
  | false =>
    simp only [hany, Bool.false_eq_true, if_false]
    exact ⟨r1, by simp [hr1], hid⟩
  | true =>
    simp only [hany, if_true]
    by_cases hm : r1.object_id = r.object_id
    · refine ⟨r, List.mem_map.2 ⟨r1, hr1, by rw [if_pos hm]⟩, ?_⟩
      rw [← hm, hid]
    · exact ⟨r1, List.mem_map.2 ⟨r1, hr1, by rw [if_neg hm]⟩, hid⟩

/-- The per-detection loop never removes an id from the store. -/
theorem cycle_loop_keeps_id (dedup_radius heading : ℝ)
    (embed : DetectedObject → List ℝ) (fresh : ℕ → String) :
    ∀ (l : List (DetectedObject × (ℝ × ℝ × ℝ))) (db : List ObjectRecord)
      (n : ℕ) (i : String),
      (∃ r' ∈ db, r'.object_id = i) →
      ∃ r' ∈ (cycle_loop dedup_radius heading embed fresh l db n).1,
        r'.object_id = i := by
  intro l
  induction l with
  | nil => intro db n i h; exact h
  | cons p rest ih =>
    intro db n i h
    obtain ⟨o, pos⟩ := p
    simp only [cycle_loop]
    exact ih _ (n + 1) i (upsert_keeps_id _ _ i h)

/-- Shape of the per-detection loop's outputs: every event is an upsert,
and every snapshot entry's object id was upserted by some event of the
loop and is present in the final store. -/
theorem cycle_loop_trace_shape (dedup_radius heading : ℝ)
    (embed : DetectedObject → List ℝ) (fresh : ℕ → String) :
    ∀ (l : List (DetectedObject × (ℝ × ℝ × ℝ))) (db : List ObjectRecord) (n : ℕ),
      (∀ e ∈ (cycle_loop dedup_radius heading embed fresh l db n).2.2,
        ∃ r, e = CycleEvent.upsert r) ∧
      (∀ v ∈ (cycle_loop dedup_radius heading embed fresh l db n).2.1,
        ∀ i, v.object_id = some i →
          (∃ r, CycleEvent.upsert r ∈ (cycle_loop dedup_radius heading embed fresh l db n).2.2 ∧
            r.object_id = i) ∧
          (∃ r' ∈ (cycle_loop dedup_radius heading embed fresh l db n).1,
            r'.object_id = i)) := by
  intro l
  induction l with
  | nil => intro db n; constructor <;> simp [cycle_loop]
  | cons p rest ih =>
    intro db n
    obtain ⟨o, pos⟩ := p
    obtain ⟨ih1, ih2⟩ := ih (upsert_object db (record_of
      ((match o.class_id with
        | some cid => find_nearby_object db cid pos dedup_radius
        | none => none).getD (fresh n)) pos (embed o) heading o)) (n + 1)
    constructor
    · intro e he
      simp only [cycle_loop] at he
      rcases List.mem_cons.1 he with heq | he'
      · exact ⟨_, heq⟩
      · exact ih1 e he'
    · intro v hv i hvi
      simp only [cycle_loop] at hv ⊢
      rcases List.mem_cons.1 hv with heq | hv'
      · have hoid : v.object_id = some ((match o.class_id with
            | some cid => find_nearby_object db cid pos dedup_radius
            | none => none).getD (fresh n)) := by
          rw [heq]; rfl
        rw [hoid] at hvi
        injection hvi with hi
        constructor
        · exact ⟨_, List.mem_cons_self _ _, hi⟩
        · apply cycle_loop_keeps_id
          obtain ⟨r', hm, hid⟩ := upsert_has_id db (record_of
            ((match o.class_id with
              | some cid => find_nearby_object db cid pos dedup_radius
              | none => none).getD (fresh n)) pos (embed o) heading o)
          exact ⟨r', hm, hid.trans hi⟩
      · obtain ⟨⟨r, hr, hrid⟩, hdb⟩ := ih2 v hv' i hvi
        exact ⟨⟨r, List.mem_cons_of_mem _ hr, hrid⟩, hdb⟩

/-- Provenance of the per-detection loop's outputs: every snapshot entry
carries the confidence of one of the processed detections, and every
upserted record carries the class fields of one of them. -/
theorem cycle_loop_provenance (dedup_radius heading : ℝ)
    (embed : DetectedObject → List ℝ) (fresh : ℕ → String) :
    ∀ (l : List (DetectedObject × (ℝ × ℝ × ℝ))) (db : List ObjectRecord) (n : ℕ),
      (∀ v ∈ (cycle_loop dedup_radius heading embed fresh l db n).2.1,
        ∃ p ∈ l, v.confidence = p.1.confidence) ∧
      (∀ r, CycleEvent.upsert r ∈ (cycle_loop dedup_radius heading embed fresh l db n).2.2 →
        ∃ p ∈ l, r.class_id = p.1.class_id ∧ r.class_name = p.1.class_name) := by
  intro l
  induction l with
  | nil => intro db n; constructor <;> simp [cycle_loop]
  | cons p rest ih =>
    intro db n
    obtain ⟨o, pos⟩ := p
    obtain ⟨ih1, ih2⟩ := ih (upsert_object db (record_of
      ((match o.class_id with
        | some cid => find_nearby_object db cid pos dedup_radius
        | none => none).getD (fresh n)) pos (embed o) heading o)) (n + 1)
    constructor
    · intro v hv
      simp only [cycle_loop] at hv
      rcases List.mem_cons.1 hv with heq | hv'
      · exact ⟨(o, pos), List.mem_cons_self _ _, by rw [heq]; rfl⟩
      · obtain ⟨q, hq, hconf⟩ := ih1 v hv'
        exact ⟨q, List.mem_cons_of_mem _ hq, hconf⟩
    · intro r hr
      simp only [cycle_loop] at hr
      rcases List.mem_cons.1 hr with heq | hr'
      · injection heq with hreq
        exact ⟨(o, pos), List.mem_cons_self _ _, by rw [hreq]; exact ⟨rfl, rfl⟩⟩
      · obtain ⟨q, hq, hcls⟩ := ih2 r hr'
        exact ⟨q, List.mem_cons_of_mem _ hq, hcls⟩

/-- The confidence filter keeps a detection exactly when its confidence is
present and at least the threshold. -/
theorem conf_keep_true_iff (threshold : ℚ) (o : DetectedObject) :
    conf_keep threshold o = true ↔ ∃ c, o.confidence = some c ∧ threshold ≤ c := by
  cases hc : o.confidence <;> simp [conf_keep, hc]

/-- Branch equation: with no detections the cycle publishes an empty
snapshot and leaves the store alone. -/
theorem run_cycle_nodet_eq (threshold : ℚ) (dedup_radius heading : ℝ)
    (embed : DetectedObject → List ℝ) (fresh : ℕ → String)
    (loc : List (ℤ × ℤ × ℤ × ℤ) → Option (List (ℝ × ℝ × ℝ)))
    (db : List ObjectRecord) (detections : List DetectedObject)
    (hdet : detections.isEmpty = true) :
    run_cycle threshold dedup_radius heading embed fresh loc db detections =
      (db, [], [CycleEvent.publish []]) := by
  simp only [run_cycle, hdet, if_true]

/-- Branch equation: with no detection surviving the confidence filter the
cycle publishes an empty snapshot and leaves the store alone. -/
theorem run_cycle_nofil_eq (threshold : ℚ) (dedup_radius heading : ℝ)
    (embed : DetectedObject → List ℝ) (fresh : ℕ → String)
    (loc : List (ℤ × ℤ × ℤ × ℤ) → Option (List (ℝ × ℝ × ℝ)))
    (db : List ObjectRecord) (detections : List DetectedObject)
    (hdet : detections.isEmpty = false)
    (hfil : (detections.filter (conf_keep threshold)).isEmpty = true) :
    run_cycle threshold dedup_radius heading embed fresh loc db detections =
      (db, [], [CycleEvent.publish []]) := by
  simp only [run_cycle, hdet, hfil, Bool.false_eq_true, if_false, if_true]

/-- Branch equation: when localization returns positions, the cycle is the
per-detection loop over the zipped pairs followed by the publish of its
snapshot. -/
theorem run_cycle_main_eq (threshold : ℚ) (dedup_radius heading : ℝ)
    (embed : DetectedObject → List ℝ) (fresh : ℕ → String)
    (loc : List (ℤ × ℤ × ℤ × ℤ) → Option (List (ℝ × ℝ × ℝ)))
    (db : List ObjectRecord) (detections : List DetectedObject)
    (positions : List (ℝ × ℝ × ℝ))
    (hdet : detections.isEmpty = false)
    (hfil : (detections.filter (conf_keep threshold)).isEmpty = false)
    (hloc : loc ((detections.filter (conf_keep threshold)).map (fun o => o.bbox)) =
      some positions) :
    run_cycle threshold dedup_radius heading embed fresh loc db detections =
      ((cycle_loop dedup_radius heading embed fresh
          ((detections.filter (conf_keep threshold)).zip positions) db 0).1,
       (cycle_loop dedup_radius heading embed fresh
          ((detections.filter (conf_keep threshold)).zip positions) db 0).2.1,
       (cycle_loop dedup_radius heading embed fresh
          ((detections.filter (conf_keep threshold)).zip positions) db 0).2.2 ++
         [CycleEvent.publish ((cycle_loop dedup_radius heading embed fresh
            ((detections.filter (conf_keep threshold)).zip positions) db 0).2.1)]) := by
  simp only [run_cycle, hdet, hfil, hloc, Bool.false_eq_true, if_false]

/-- Branch equation: when localization times out, the cycle publishes the
position-less snapshot and performs no store write. -/
theorem run_cycle_timeout_eq (threshold : ℚ) (dedup_radius heading : ℝ)
    (embed : DetectedObject → List ℝ) (fresh : ℕ → String)
    (loc : List (ℤ × ℤ × ℤ × ℤ) → Option (List (ℝ × ℝ × ℝ)))
    (db : List ObjectRecord) (detections : List DetectedObject)
    (hdet : detections.isEmpty = false)
    (hfil : (detections.filter (conf_keep threshold)).isEmpty = false)
    (hloc : loc ((detections.filter (conf_keep threshold)).map (fun o => o.bbox)) = none) :
    run_cycle threshold dedup_radius heading embed fresh loc db detections =
      (db, (detections.filter (conf_keep threshold)).map (fun o => vis_entry_of o none none),
       [CycleEvent.publish ((detections.filter (conf_keep threshold)).map
         (fun o => vis_entry_of o none none))]) := by
  simp only [run_cycle, hdet, hfil, hloc, Bool.false_eq_true, if_false]

/-! Theorems for claims C4, C5, C10 (detector cycle) -/

/-- C4: in a cycle where some detections survive the confidence filter but
`bboxes_to_positions` times out (returns none), the store is left
unchanged, the published snapshot has exactly one entry per surviving
detection in order, each with `position = none` and `object_id = none`,
and no upsert event occurs. -/
theorem c4_timeout_skips_persistence (threshold : ℚ) (dedup_radius heading : ℝ)
    (embed : DetectedObject → List ℝ) (fresh : ℕ → String)
    (loc : List (ℤ × ℤ × ℤ × ℤ) → Option (List (ℝ × ℝ × ℝ)))
    (db : List ObjectRecord) (detections : List DetectedObject)
    (hfil : (detections.filter (conf_keep threshold)).isEmpty = false)
    (hloc : loc ((detections.filter (conf_keep threshold)).map (fun o => o.bbox)) = none) :
    (run_cycle threshold dedup_radius heading embed fresh loc db detections).1 = db ∧
    (run_cycle threshold dedup_radius heading embed fresh loc db detections).2.1 =
      (detections.filter (conf_keep threshold)).map (fun o => vis_entry_of o none none) ∧
    (∀ v ∈ (run_cycle threshold dedup_radius heading embed fresh loc db detections).2.1,
      v.position = none ∧ v.object_id = none) ∧
    (∀ e ∈ (run_cycle threshold dedup_radius heading embed fresh loc db detections).2.2,
      ∀ r, e ≠ CycleEvent.upsert r) := by
  have hdet : detections.isEmpty = false := by
    cases detections with
    | nil => simp at hfil
    | cons a l => rfl
  rw [run_cycle_timeout_eq threshold dedup_radius heading embed fresh loc db detections
    hdet hfil hloc]
  refine ⟨rfl, rfl, ?_, ?_⟩
  · intro v hv
    obtain ⟨o, -, rfl⟩ := List.mem_map.1 hv
    exact ⟨rfl, rfl⟩
  · intro e he r
    have : e = CycleEvent.publish ((detections.filter (conf_keep threshold)).map
        (fun o => vis_entry_of o none none)) := by
      simpa using he
    simp [this]

/-- Witness for C4 at a concrete cycle: one confident detection, a
localization service that times out, an empty store. -/
theorem c4_timeout_skips_persistence_witness :
    (([det_cup].filter (conf_keep 0)).isEmpty = false) ∧
    ((run_cycle 0 1 0 (fun _ => []) (fun _ => "fresh_id") (fun _ => none) [] [det_cup]).1 = [] ∧
     (run_cycle 0 1 0 (fun _ => []) (fun _ => "fresh_id") (fun _ => none) [] [det_cup]).2.1 =
       ([det_cup].filter (conf_keep 0)).map (fun o => vis_entry_of o none none) ∧
     (∀ v ∈ (run_cycle 0 1 0 (fun _ => []) (fun _ => "fresh_id") (fun _ => none) [] [det_cup]).2.1,
       v.position = none ∧ v.object_id = none) ∧
     (∀ e ∈ (run_cycle 0 1 0 (fun _ => []) (fun _ => "fresh_id") (fun _ => none) [] [det_cup]).2.2,
       ∀ r, e ≠ CycleEvent.upsert r)) :=
  ⟨by decide,
   c4_timeout_skips_persistence 0 1 0 (fun _ => []) (fun _ => "fresh_id") (fun _ => none)
     [] [det_cup] (by decide) rfl⟩

/-- C5: in a cycle whose localization call succeeds, the event trace is a
block of upsert events followed by the single snapshot publication, and
every object id appearing in the published snapshot was upserted by one of
those preceding events and is present in the final store. -/
theorem c5_snapshot_ids_upserted (threshold : ℚ) (dedup_radius heading : ℝ)
    (embed : DetectedObject → List ℝ) (fresh : ℕ → String)
    (loc : List (ℤ × ℤ × ℤ × ℤ) → Option (List (ℝ × ℝ × ℝ)))
    (db : List ObjectRecord) (detections : List DetectedObject)
    (positions : List (ℝ × ℝ × ℝ))
    (hloc : loc ((detections.filter (conf_keep threshold)).map (fun o => o.bbox)) =
      some positions) :
    ∃ pre,
      (run_cycle threshold dedup_radius heading embed fresh loc db detections).2.2 =
        pre ++ [CycleEvent.publish
          (run_cycle threshold dedup_radius heading embed fresh loc db detections).2.1] ∧
      (∀ e ∈ pre, ∃ r, e = CycleEvent.upsert r) ∧
      (∀ v ∈ (run_cycle threshold dedup_radius heading embed fresh loc db detections).2.1,
        ∀ i, v.object_id = some i →
          (∃ r, CycleEvent.upsert r ∈ pre ∧ r.object_id = i) ∧
          (∃ r' ∈ (run_cycle threshold dedup_radius heading embed fresh loc db detections).1,
            r'.object_id = i)) := by
  by_cases hdet : detections.isEmpty = true
  · rw [run_cycle_nodet_eq threshold dedup_radius heading embed fresh loc db detections hdet]
    exact ⟨[], rfl, by simp, by simp⟩
  · have hdet' : detections.isEmpty = false := eq_false_of_ne_true hdet
    by_cases hfil : (detections.filter (conf_keep threshold)).isEmpty = true
    · rw [run_cycle_nofil_eq threshold dedup_radius heading embed fresh loc db detections
        hdet' hfil]
      exact ⟨[], rfl, by simp, by simp⟩
    · have hfil' : (detections.filter (conf_keep threshold)).isEmpty = false :=
        eq_false_of_ne_true hfil
      rw [run_cycle_main_eq threshold dedup_radius heading embed fresh loc db detections
        positions hdet' hfil' hloc]
      refine ⟨(cycle_loop dedup_radius heading embed fresh
        ((detections.filter (conf_keep threshold)).zip positions) db 0).2.2, rfl, ?_, ?_⟩
      · exact (cycle_loop_trace_shape dedup_radius heading embed fresh
          ((detections.filter (conf_keep threshold)).zip positions) db 0).1
      · intro v hv i hvi
        exact (cycle_loop_trace_shape dedup_radius heading embed fresh
          ((detections.filter (conf_keep threshold)).zip positions) db 0).2 v hv i hvi

/-- Witness for C5 at a concrete cycle: one confident detection located at
(1, 2, 3), an empty store. -/
theorem c5_snapshot_ids_upserted_witness :
    ∃ pre,
      (run_cycle 0 1 0 (fun _ => []) (fun _ => "fresh_id")
        (fun _ => some [((1:ℝ), 2, 3)]) [] [det_cup]).2.2 =
        pre ++ [CycleEvent.publish
          (run_cycle 0 1 0 (fun _ => []) (fun _ => "fresh_id")
            (fun _ => some [((1:ℝ), 2, 3)]) [] [det_cup]).2.1] ∧
      (∀ e ∈ pre, ∃ r, e = CycleEvent.upsert r) ∧
      (∀ v ∈ (run_cycle 0 1 0 (fun _ => []) (fun _ => "fresh_id")
          (fun _ => some [((1:ℝ), 2, 3)]) [] [det_cup]).2.1,
        ∀ i, v.object_id = some i →
          (∃ r, CycleEvent.upsert r ∈ pre ∧ r.object_id = i) ∧
          (∃ r' ∈ (run_cycle 0 1 0 (fun _ => []) (fun _ => "fresh_id")
              (fun _ => some [((1:ℝ), 2, 3)]) [] [det_cup]).1,
            r'.object_id = i)) :=
  c5_snapshot_ids_upserted 0 1 0 (fun _ => []) (fun _ => "fresh_id")
    (fun _ => some [((1:ℝ), 2, 3)]) [] [det_cup] [((1:ℝ), 2, 3)] rfl

/-- C10: a detection with absent confidence is rejected by the confidence
filter exactly like a below-threshold one; the cycle consults the
localization service only on the filtered bboxes, every snapshot entry it
publishes carries a present confidence at least the threshold, and every
upserted record stems from a detection that survived the filter. -/
theorem c10_none_confidence_discarded (threshold : ℚ) (dedup_radius heading : ℝ)
    (embed : DetectedObject → List ℝ) (fresh : ℕ → String)
    (loc : List (ℤ × ℤ × ℤ × ℤ) → Option (List (ℝ × ℝ × ℝ)))
    (db : List ObjectRecord) (detections : List DetectedObject) (o : DetectedObject)
    (_ho : o ∈ detections) (hc : o.confidence = none) :
    conf_keep threshold o = false ∧
    o ∉ detections.filter (conf_keep threshold) ∧
    (∀ loc', loc' ((detections.filter (conf_keep threshold)).map (fun o => o.bbox)) =
        loc ((detections.filter (conf_keep threshold)).map (fun o => o.bbox)) →
      run_cycle threshold dedup_radius heading embed fresh loc' db detections =
        run_cycle threshold dedup_radius heading embed fresh loc db detections) ∧
    (∀ v ∈ (run_cycle threshold dedup_radius heading embed fresh loc db detections).2.1,
      ∃ c, v.confidence = some c ∧ threshold ≤ c) ∧
    (∀ r, CycleEvent.upsert r ∈
        (run_cycle threshold dedup_radius heading embed fresh loc db detections).2.2 →
      ∃ o' ∈ detections.filter (conf_keep threshold),
        r.class_id = o'.class_id ∧ r.class_name = o'.class_name) := by
  have hkeep : conf_keep threshold o = false := by simp [conf_keep, hc]
  have hconf_of_mem : ∀ o' ∈ detections.filter (conf_keep threshold),
      ∃ c, o'.confidence = some c ∧ threshold ≤ c := by
    intro o' ho'
    exact (conf_keep_true_iff threshold o').1 (List.mem_filter.1 ho').2
  refine ⟨hkeep, ?_, ?_, ?_, ?_⟩
  · intro hmem
    have := (List.mem_filter.1 hmem).2
    rw [hkeep] at this
    exact absurd this (by simp)
  · intro loc' h
    simp only [run_cycle]
    rw [h]
  · by_cases hdet : detections.isEmpty = true
    · rw [run_cycle_nodet_eq threshold dedup_radius heading embed fresh loc db detections hdet]
      simp
    · have hdet' : detections.isEmpty = false := eq_false_of_ne_true hdet
      by_cases hfil : (detections.filter (conf_keep threshold)).isEmpty = true
      · rw [run_cycle_nofil_eq threshold dedup_radius heading embed fresh loc db detections
          hdet' hfil]
        simp
      · have hfil' : (detections.filter (conf_keep threshold)).isEmpty = false :=
          eq_false_of_ne_true hfil
        cases hloc : loc ((detections.filter (conf_keep threshold)).map (fun o => o.bbox)) with
        | none =>
          rw [run_cycle_timeout_eq threshold dedup_radius heading embed fresh loc db detections
            hdet' hfil' hloc]
          intro v hv
          obtain ⟨o', ho', rfl⟩ := List.mem_map.1 hv
          obtain ⟨c, hcc, hthc⟩ := hconf_of_mem o' ho'
          exact ⟨c, hcc, hthc⟩
        | some positions =>
          rw [run_cycle_main_eq threshold dedup_radius heading embed fresh loc db detections
            positions hdet' hfil' hloc]
          intro v hv
          obtain ⟨p, hp, hconf⟩ := (cycle_loop_provenance dedup_radius heading embed fresh
            ((detections.filter (conf_keep threshold)).zip positions) db 0).1 v hv
          have hp1 : p.1 ∈ detections.filter (conf_keep threshold) := by
            obtain ⟨a, b⟩ := p
            exact (List.of_mem_zip hp).1
          obtain ⟨c, hcc, hthc⟩ := hconf_of_mem p.1 hp1
          exact ⟨c, hconf.trans hcc, hthc⟩
  · by_cases hdet : detections.isEmpty = true
    · rw [run_cycle_nodet_eq threshold dedup_radius heading embed fresh loc db detections hdet]
      simp
    · have hdet' : detections.isEmpty = false := eq_false_of_ne_true hdet
      by_cases hfil : (detections.filter (conf_keep threshold)).isEmpty = true
      · rw [run_cycle_nofil_eq threshold dedup_radius heading embed fresh loc db detections
          hdet' hfil]
        simp
      · have hfil' : (detections.filter (conf_keep threshold)).isEmpty = false :=
          eq_false_of_ne_true hfil
        cases hloc : loc ((detections.filter (conf_keep threshold)).map (fun o => o.bbox)) with
        | none =>
          rw [run_cycle_timeout_eq threshold dedup_radius heading embed fresh loc db detections
            hdet' hfil' hloc]
          intro r hr
          simp at hr
        | some positions =>
          rw [run_cycle_main_eq threshold dedup_radius heading embed fresh loc db detections
            positions hdet' hfil' hloc]
          intro r hr
          rcases List.mem_append.1 hr with hr' | hr'
          · obtain ⟨p, hp, hcls⟩ := (cycle_loop_provenance dedup_radius heading embed fresh
              ((detections.filter (conf_keep threshold)).zip positions) db 0).2 r hr'
            have hp1 : p.1 ∈ detections.filter (conf_keep threshold) := by
              obtain ⟨a, b⟩ := p
              exact (List.of_mem_zip hp).1
            exact ⟨p.1, hp1, hcls⟩
          · simp at hr'

/-- Witness for C10 at a concrete cycle: one confidence-less detection and
one confident detection, a localization service that times out. -/
theorem c10_none_confidence_discarded_witness :
    conf_keep 0 det_noconf = false ∧
    det_noconf ∉ [det_noconf, det_cup].filter (conf_keep 0) ∧
    (∀ loc', loc' (([det_noconf, det_cup].filter (conf_keep 0)).map (fun o => o.bbox)) =
        (fun _ => (none : Option (List (ℝ × ℝ × ℝ))))
          (([det_noconf, det_cup].filter (conf_keep 0)).map (fun o => o.bbox)) →
      run_cycle 0 1 0 (fun _ => []) (fun _ => "fresh_id") loc' [] [det_noconf, det_cup] =
        run_cycle 0 1 0 (fun _ => []) (fun _ => "fresh_id") (fun _ => none) []
          [det_noconf, det_cup]) ∧
    (∀ v ∈ (run_cycle 0 1 0 (fun _ => []) (fun _ => "fresh_id") (fun _ => none) []
        [det_noconf, det_cup]).2.1,
      ∃ c, v.confidence = some c ∧ (0:ℚ) ≤ c) ∧
    (∀ r, CycleEvent.upsert r ∈
        (run_cycle 0 1 0 (fun _ => []) (fun _ => "fresh_id") (fun _ => none) []
          [det_noconf, det_cup]).2.2 →
      ∃ o' ∈ [det_noconf, det_cup].filter (conf_keep 0),
        r.class_id = o'.class_id ∧ r.class_name = o'.class_name) :=
  c10_none_confidence_discarded 0 1 0 (fun _ => []) (fun _ => "fresh_id") (fun _ => none)
    [] [det_noconf, det_cup] det_noconf (by decide) rfl

/-! Theorem for claim C7 (teleop command equals pose composition) -/

/-- C7: for every controller-delta message whose group is known to the
session, the commanded pose equals the composition of the group's
reference pose with the remapped delta: since every reference pose the
session captures has the identity rotation, the rotated delta translation
coincides with the plain sum the listener computes, and the rotations are
the same quaternion product on both sides. -/
theorem c7_teleop_command_is_compose (group : String) (p : RigidPose)
    (hp : teleop_session_initial_poses group = some p)
    (cx cy cz cqx cqy cqz cqw : ℝ) :
    listener_command p cx cy cz cqx cqy cqz cqw =
      compose_transforms p (remap_controller_to_ros cx cy cz cqx cqy cqz cqw) := by
  have hpp : p = ⟨0.3, 0.2, 0.6, 0, 0, 0, 1⟩ := by
    obtain ⟨link, -, hp2⟩ :=
      Option.map_eq_some'.1 (by simpa [teleop_session_initial_poses] using hp)
    rw [← hp2]
    rfl
  subst hpp
  simp only [listener_command, compose_transforms]
  generalize remap_controller_to_ros cx cy cz cqx cqy cqz cqw = d
  ext <;> simp [rotate_vector_by_quaternion, quaternion_multiply]

/-- Witness for C7 at the known group "left_arm" and a concrete message. -/
theorem c7_teleop_command_is_compose_witness :
    teleop_session_initial_poses ("left_arm") = some ⟨0.3, 0.2, 0.6, 0, 0, 0, 1⟩ ∧
    listener_command ⟨0.3, 0.2, 0.6, 0, 0, 0, 1⟩ 1 2 3 0 0 0 1 =
      compose_transforms ⟨0.3, 0.2, 0.6, 0, 0, 0, 1⟩
        (remap_controller_to_ros 1 2 3 0 0 0 1) :=
  ⟨rfl, c7_teleop_command_is_compose ("left_arm") ⟨0.3, 0.2, 0.6, 0, 0, 0, 1⟩ rfl 1 2 3 0 0 0 1⟩
